import Mathlib

/-!
Verification development for the adapt-authoring-server repository.

The definitions below are a shallow embedding of the JavaScript sources:

* lib/Router.js  — the hierarchical Router class (constructor state, addMiddleware,
  addHandlerMiddleware, _addMiddleware, addRoute, validateRoute, createChildRouter,
  getHandlerMiddleware and the route-registration part of init).
* lib/ServerUtils.js — methodNotAllowedHandler, getAllRoutes, addExistenceProps,
  cacheRouteConfig.
* lib/utils/addExistenceProps.js, lib/utils/getAllRoutes.js,
  lib/utils/generateRouterMap.js — the standalone utility variants.
* node_modules/adapt-authoring-core/lib/Hook.js — the Hook publish/subscribe
  primitive (tap, untap, invoke).

JavaScript values that matter to the embedded code (functions, arrays, strings,
null/undefined) are modelled by small inductive types; JS objects whose key order
matters are modelled as association lists in insertion order; the machine
integers of JS play no role here.  Mutation is modelled by explicit state
passing: each operation takes the state before and returns the state after.
-/

/-- A JavaScript value as far as route validation cares: lodash isString and the
handlers-object check only distinguish strings from everything else. -/
inductive JsVal where
  | str (s : String)
  | num (n : Nat)
  | nullv
  | undef
  deriving DecidableEq, Repr

/-- lodash _.isString -/
def JsVal.isString : JsVal → Bool
  | .str _ => true
  | _ => false

/-- Renders a JsVal the way a JS template literal does (only the cases that
occur in the embedded code). -/
def JsVal.render : JsVal → String
  | .str s => s
  | .num n => toString n
  | .nullv => "null"
  | .undef => "undefined"

/-- An element of a JS array passed as a handlers value: a function or any
other value (a nested array is itself not a function, so one non-function
constructor covers it for the validation the code performs). -/
inductive HElem where
  | fn (id : Nat)
  | other (v : Nat)
  deriving DecidableEq, Repr

/-- lodash _.isFunction on array elements -/
def HElem.isFunction : HElem → Bool
  | .fn _ => true
  | _ => false

/-- A value that can appear as a handlers-object entry or middleware argument:
a function (identified by an id), an array of values, or anything else. -/
inductive HVal where
  | fn (id : Nat)
  | arr (elems : List HElem)
  | other (v : Nat)
  deriving DecidableEq, Repr

/-- lodash _.isFunction -/
def HVal.isFunction : HVal → Bool
  | .fn _ => true
  | _ => false

/-- lodash _.isArray -/
def HVal.isArray : HVal → Bool
  | .arr _ => true
  | _ => false

/-- h.every(_.isFunction) on an array value (false on non-arrays, where the
code never evaluates it thanks to short-circuiting). -/
def HVal.allElemsFunctions : HVal → Bool
  | .arr es => es.all HElem.isFunction
  | _ => false

/-- Per-method metadata on a route definition; the code only ever passes these
objects through (route?.meta?.[method] ?? \x7b\x7d), so an opaque tag suffices;
emptyObj stands for the default empty object. -/
inductive MetaVal where
  | obj (tag : Nat)
  | emptyObj
  deriving DecidableEq, Repr

/-- A route definition as stored in Router.routes (lib/Router.js).
handlers = none models an absent/falsy handlers property; some hs models the
handlers object with its entries in key-insertion order. -/
structure RouteDef where
  route : JsVal
  handlers : Option (List (String × HVal))
  internal : Bool := false
  meta : List (String × MetaVal) := []
  deriving DecidableEq, Repr

/-- The property names defined on an Express router object, as consulted by
validateRoute via (this.expressRouter[m] === undefined).  An Express router
exposes one registration function per HTTP verb plus its own API; the exact
extent of this list is irrelevant to the theorems below, which only compare the
code against the same predicate. -/
def expressRouterKeys : List String :=
  ["get", "post", "put", "patch", "delete", "head", "options", "all",
   "trace", "connect", "copy", "lock", "mkcol", "move", "purge", "propfind",
   "proppatch", "search", "subscribe", "unsubscribe", "notify", "checkout",
   "merge", "report", "mkactivity", "unlock", "link", "unlink",
   "use", "route", "param", "handle", "stack"]

/-- this.expressRouter[m] !== undefined -/
def expressHasMethod (m : String) : Bool :=
  expressRouterKeys.contains m

/-- The mutable state of one Router instance (lib/Router.js constructor):
routes, the two middleware stacks, the child list and the one-shot
_initialised flag.  Children are tracked by their route segment, which is all
createChildRouter appends that the frozen-shape claims inspect. -/
structure RouterState where
  routes : List RouteDef
  routerMiddleware : List HVal
  handlerMiddleware : List HVal
  childRouters : List String
  initialised : Bool
  deriving DecidableEq, Repr

/-- Router.validateRoute (lib/Router.js): a route config is kept iff its route
is a string, its handlers object is truthy, and every handlers entry names a
method the express router defines and carries a function or an array of
functions.  Object.entries(...).every returns true on an empty handlers
object. -/
def validateRoute (r : RouteDef) : Bool :=
  if ¬ r.route.isString then false
  else
    match r.handlers with
    | none => false
    | some hs =>
      let allHandlersFuncs := hs.all fun mh =>
        if ¬ expressHasMethod mh.1 then false
        else if ¬ mh.2.isFunction && ¬ (mh.2.isArray && mh.2.allElemsFunctions) then false
        else true
      if ¬ allHandlersFuncs then false else true

/-- Router._addMiddleware (lib/Router.js): when given a non-empty argument
list it warns if the router has initialised but still pushes the function
arguments onto the given stack. -/
def addMiddlewareToStack (stack : List HVal) (func : List HVal) : List HVal :=
  if func.length ≠ 0 then stack ++ func.filter HVal.isFunction else stack

/-- Router.addMiddleware -/
def RouterState.addMiddleware (s : RouterState) (func : List HVal) : RouterState :=
  { s with routerMiddleware := addMiddlewareToStack s.routerMiddleware func }

/-- Router.addHandlerMiddleware -/
def RouterState.addHandlerMiddleware (s : RouterState) (func : List HVal) : RouterState :=
  { s with handlerMiddleware := addMiddlewareToStack s.handlerMiddleware func }

/-- Router.addRoute (lib/Router.js): warns when already initialised and in that
case pushes nothing; otherwise appends the argument definitions that pass
validateRoute. -/
def RouterState.addRoute (s : RouterState) (route : List RouteDef) : RouterState :=
  if ¬ s.initialised ∧ route.length ≠ 0 then
    { s with routes := s.routes ++ route.filter validateRoute }
  else s

/-- Router.createChildRouter (lib/Router.js): returns unchanged when already
initialised, otherwise appends a fresh child router mounted at the given
segment. -/
def RouterState.createChildRouter (s : RouterState) (route : String) : RouterState :=
  if s.initialised then s
  else { s with childRouters := s.childRouters ++ [route] }

/-- The parent chain of a Router as walked by getHandlerMiddleware: each node
carries its own handlerMiddleware stack; the chain ends at the top-level
express application, which is not an instance of Router. -/
inductive RouterChain where
  | app
  | node (handlerMiddleware : List HVal) (parentRouter : RouterChain)
  deriving DecidableEq, Repr

/-- Router.getHandlerMiddleware (lib/Router.js): recursively walks up the
parent chain, prepending each ancestor's handlerMiddleware to the accumulator;
the initial call passes the router itself and an empty accumulator. -/
def getHandlerMiddleware : RouterChain → List HVal → List HVal
  | .app, middleware => middleware
  | .node hm parent, middleware => getHandlerMiddleware parent (hm ++ middleware)

/-- The Router ancestry as the claim describes it: the list of handler
middleware stacks from the root router down to the node itself. -/
def ancestorStacks : RouterChain → List (List HVal)
  | .app => []
  | .node hm parent => ancestorStacks parent ++ [hm]

/-- The fixed method list iterated by Router.init when registering route
handlers (lib/Router.js). -/
def initMethodOrder : List String := ["post", "get", "put", "patch", "delete"]

/-- One element of the express registration call
expressRouter[method](r.route, cacheRouteConfig(r), ...getHandlerMiddleware(), handler):
the request-scoped route-config caching middleware, or an ordinary handler
middleware function. -/
inductive RegMW where
  | cacheRoute (r : RouteDef)
  | mw (f : HVal)
  deriving DecidableEq, Repr

/-- The final handler argument of a registration: the handler declared for the
method, or the apiInvalidMethodHandler fallback. -/
inductive RegHandler where
  | declared (h : HVal)
  | invalidMethodFallback
  deriving DecidableEq, Repr

/-- One expressRouter[method](...) call made by Router.init. -/
structure RegEntry where
  method : String
  path : String
  middleware : List RegMW
  handler : RegHandler
  deriving DecidableEq, Repr

/-- r.handlers[method]; init only runs on routes that passed validateRoute, so
handlers is present there. -/
def lookupHandler (r : RouteDef) (m : String) : Option HVal :=
  (r.handlers.getD []).lookup m

/-- The route-registration loop of Router.init (lib/Router.js): for every
stored route and each of the five methods in initMethodOrder, register
(route path, cacheRouteConfig(r), ...getHandlerMiddleware(), handler), where
handler is the declared one when present and apiInvalidMethodHandler
otherwise. -/
def initRegistrations (routes : List RouteDef) (router : RouterChain) : List RegEntry :=
  routes.flatMap fun r =>
    initMethodOrder.map fun method =>
      { method := method
        path := r.route.render
        middleware := RegMW.cacheRoute r :: (getHandlerMiddleware router []).map RegMW.mw
        handler := match lookupHandler r method with
          | some h => .declared h
          | none => .invalidMethodFallback }

/-- The kind of response an API handler produces, as far as the 404/405
distinction cares. -/
inductive ApiResponseKind where
  | methodNotImplemented
  | endpointNotFound
  | handled
  deriving DecidableEq, Repr

/-- Modelled from the spec: ServerUtils.apiInvalidMethodHandler is referenced
by Router.init but its definition is not among the sources (lib/ServerUtils.js
has no such member); the spec describes it as a generic "method not implemented
for this path" responder, distinct from "path not found". -/
def apiInvalidMethodHandlerKind : ApiResponseKind := .methodNotImplemented

/-- ServerUtils.apiNotFoundHandler (lib/ServerUtils.js) responds with the
ENDPOINT_NOT_FOUND error. -/
def apiNotFoundHandlerKind : ApiResponseKind := .endpointNotFound

/-- JS String.prototype.toUpperCase for an ASCII character. -/
def jsUpperChar (c : Char) : Char :=
  if 'a' ≤ c ∧ c ≤ 'z' then Char.ofNat (c.toNat - 32) else c

/-- JS String.prototype.toUpperCase (the method names handled here are ASCII). -/
def jsToUpper (s : String) : String := String.mk (s.data.map jsUpperChar)

/-- Lexicographic order on character lists: the comparison JS applies between
ASCII strings, both for the default Array.prototype.sort comparator and for
localeCompare on plain ASCII names. -/
def charListLt : List Char → List Char → Bool
  | [], [] => false
  | [], _ :: _ => true
  | _ :: _, [] => false
  | a :: as, b :: bs => if a < b then true else if b < a then false else charListLt as bs

/-- String comparison used by the sorts in the embedded code. -/
def jsStrLt (a b : String) : Bool := charListLt a.data b.data

/-- Insert into a sorted list, keeping an element after existing equal keys, so
that the overall sort is stable like JS Array.prototype.sort. -/
def insertByKey {α : Type} (key : α → String) (x : α) : List α → List α
  | [] => [x]
  | y :: ys => if jsStrLt (key x) (key y) then x :: y :: ys else y :: insertByKey key x ys

/-- Stable sort by a string key (JS Array.prototype.sort with a string
comparator). -/
def sortByKey {α : Type} (key : α → String) : List α → List α
  | [] => []
  | x :: xs => insertByKey key x (sortByKey key xs)

/-- A Router whose routes and middleware stacks are empty and which has
already initialised: the state right after init() on a freshly constructed
Router (default middleware omitted; only the list shapes matter). -/
def initedRouter : RouterState :=
  { routes := [], routerMiddleware := [], handlerMiddleware := [],
    childRouters := [], initialised := true }

/-- A Router that has not yet initialised. -/
def freshRouter : RouterState :=
  { routes := [], routerMiddleware := [], handlerMiddleware := [],
    childRouters := [], initialised := false }

/-- A route definition whose handlers object is present but empty:
\x7b route: "/x", handlers: \x7b\x7d \x7d. -/
def emptyHandlersRoute : RouteDef := { route := .str "/x", handlers := some [] }

/-- A well-formed example route: \x7b route: "/health", handlers: \x7b get \x7d \x7d. -/
def healthRoute : RouteDef := { route := .str "/health", handlers := some [("get", HVal.fn 7)] }

/-- The claim's validity notion for C5, following its words: route is a
string; handlers is present and non-empty; every key is recognized by the
underlying router; every value is a single function or a non-empty array of
functions only. -/
def claimValidRoute (r : RouteDef) : Prop :=
  r.route.isString = true ∧
  ∃ hs, r.handlers = some hs ∧ hs ≠ [] ∧
    ∀ mh ∈ hs, expressHasMethod mh.1 = true ∧
      (mh.2.isFunction = true ∨
        ∃ es, mh.2 = HVal.arr es ∧ es ≠ [] ∧ ∀ e ∈ es, e.isFunction = true)

/-- The amended validity notion for C5: as the claim, but an empty handlers
object and empty handler arrays are also accepted. -/
def amendedValidRoute (r : RouteDef) : Prop :=
  r.route.isString = true ∧
  ∃ hs, r.handlers = some hs ∧
    ∀ mh ∈ hs, expressHasMethod mh.1 = true ∧
      (mh.2.isFunction = true ∨
        ∃ es, mh.2 = HVal.arr es ∧ ∀ e ∈ es, e.isFunction = true)

/-- val === undefined || val === null -/
def JsVal.isNullish : JsVal → Bool
  | .nullv => true
  | .undef => true
  | _ => false

/-- The request fields touched by the embedded middleware.  body, params and
query are JS objects given as entry lists in key order; none models an
absent/falsy container.  The has* flags and routeConfig start out absent. -/
structure Req where
  method : String
  body : Option (List (String × JsVal)) := none
  params : Option (List (String × JsVal)) := none
  query : Option (List (String × JsVal)) := none
  hasBody : Option Bool := none
  hasParams : Option Bool := none
  hasQuery : Option Bool := none
  routeConfig : Option RouteDef := none
  deriving DecidableEq, Repr

/-- The processing addExistenceProps applies to one container: when the
container is falsy, store missingFlag (the one point where the two source
variants differ); when it has no entries, store false and leave it; otherwise
delete every null/undefined entry in place and store whether fewer entries
were deleted than existed. -/
def processAttr (missingFlag : Bool) :
    Option (List (String × JsVal)) → Option (List (String × JsVal)) × Bool
  | none => (none, missingFlag)
  | some entries =>
      if entries.length = 0 then (some entries, false)
      else
        let deleted := entries.countP fun kv => kv.2.isNullish
        (some (entries.filter fun kv => !kv.2.isNullish),
         decide (deleted < entries.length))

/-- Common shape of both addExistenceProps variants: clear the body of GET
requests, then process body, params and query in that order. -/
def addExistencePropsWith (missingFlag : Bool) (req : Req) : Req :=
  let req := if req.method == "GET" then { req with body := some [] } else req
  let b := processAttr missingFlag req.body
  let p := processAttr missingFlag req.params
  let q := processAttr missingFlag req.query
  { req with
      body := b.1, hasBody := some b.2,
      params := p.1, hasParams := some p.2,
      query := q.1, hasQuery := some q.2 }

/-- addExistenceProps from lib/utils/addExistenceProps.js: an absent container
is flagged false. -/
def addExistencePropsUtils : Req → Req := addExistencePropsWith false

/-- ServerUtils.addExistenceProps from lib/ServerUtils.js: an absent container
is flagged true. -/
def addExistencePropsServer : Req → Req := addExistencePropsWith true

/-- The container contents after stripping null/undefined values, as the claim
describes it. -/
def specStrip (c : Option (List (String × JsVal))) : Option (List (String × JsVal)) :=
  c.map fun l => l.filter fun kv => !kv.2.isNullish

/-- The claim's existence flag: true iff at least one key survives the
stripping (an absent container has no keys). -/
def specSurvives (c : Option (List (String × JsVal))) : Bool :=
  match c with
  | none => false
  | some l => !(l.filter fun kv => !kv.2.isNullish).isEmpty

/-- The ServerUtils variant's existence flag: absence counts as trivially
satisfied. -/
def specFlagServer (c : Option (List (String × JsVal))) : Bool :=
  match c with
  | none => true
  | some l => !(l.filter fun kv => !kv.2.isNullish).isEmpty

/-- The body after the GET normalization step. -/
def specGetBody (req : Req) : Option (List (String × JsVal)) :=
  if req.method == "GET" then some [] else req.body

/-- A POST request whose body container is absent: the input on which the two
addExistenceProps variants disagree. -/
def postNoBodyReq : Req :=
  { method := "POST", body := none, params := some [], query := some [] }

/-- An argument passed to an express next() continuation: nothing, or an
error value. -/
inductive NextArg where
  | noArg
  | err (e : String)
  deriving DecidableEq, Repr

/-- ServerUtils.cacheRouteConfig (lib/ServerUtils.js): the returned middleware
stores the route config on the request and calls next().  The model returns
the request and response after the call together with the list of next()
invocations made. -/
def cacheRouteConfig (routeConfig : RouteDef) (req : Req) (res : Nat) :
    Req × Nat × List NextArg :=
  ({ req with routeConfig := some routeConfig }, res, [NextArg.noArg])

/-- One entry of Hook._hookObservers: Hook.tap stores observer.bind(scope), a
fresh function object wrapping the tapped function.  Function objects are
identified by reference ids; wrapper is the id of the bound wrapper and target
the id of the function it wraps. -/
structure BoundObs where
  wrapper : Nat
  target : Nat
  deriving DecidableEq, Repr

/-- A Hook's observer list together with the reference allocator: every
existing function object has an id different from nextRef, and bind allocates
nextRef for the new wrapper. -/
structure HookRefs where
  observers : List BoundObs
  nextRef : Nat
  deriving DecidableEq, Repr

/-- Hook.tap (Hook.js): a function argument is bound to the scope, allocating
a fresh wrapper object, and the wrapper is pushed; a non-function argument is
ignored.  isFn says whether the argument value f is a function. -/
def HookRefs.tap (h : HookRefs) (f : Nat) (isFn : Bool) : HookRefs :=
  if isFn then
    { observers := h.observers ++ [⟨h.nextRef, f⟩], nextRef := h.nextRef + 1 }
  else h

/-- Array.prototype.splice(i, 1) at the first index whose element passes p, as
untap does via indexOf: removes only the first match and nothing when indexOf
yields -1. -/
def removeFirst (p : BoundObs → Bool) : List BoundObs → List BoundObs
  | [] => []
  | o :: os => if p o then os else o :: removeFirst p os

/-- Hook.untap (Hook.js): indexOf compares the argument reference against the
stored wrapper references. -/
def HookRefs.untap (h : HookRefs) (f : Nat) : HookRefs :=
  { h with observers := removeFirst (fun o => o.wrapper == f) h.observers }

/-- The functions Hook.invoke runs: every stored wrapper calls its target. -/
def HookRefs.invokeTargets (h : HookRefs) : List Nat :=
  h.observers.map BoundObs.target

/-- A Hook with no observers yet, in a heap where function 0 already exists
(so the allocator starts at 1). -/
def hook0 : HookRefs := { observers := [], nextRef := 1 }

/-- Hook execution modes (Hook.Types). -/
inductive HookType where
  | parallel
  | series
  deriving DecidableEq, Repr

/-- The options object passed to the Hook constructor; none models an absent
property. -/
structure HookOptsIn where
  type : Option HookType := none
  mutable : Option Bool := none
  deriving DecidableEq, Repr

/-- The resolved Hook options. -/
structure HookOpts where
  type : HookType
  mutable : Bool
  deriving DecidableEq, Repr

/-- The Hook constructor's option resolution:
Object.assign(\x7b type: opts?.mutable === true ? Series : Parallel,
mutable: false \x7d, opts) — properties present on opts win. -/
def resolveOpts (opts : Option HookOptsIn) : HookOpts :=
  { type := (opts.bind HookOptsIn.type).getD
      (if opts.bind HookOptsIn.mutable == some true then .series else .parallel),
    mutable := (opts.bind HookOptsIn.mutable).getD false }

/-- A mutable JS object passed to Hook.invoke, as its list of fields. -/
abbrev Obj := List (String × Nat)

/-- Shared-argument execution: each observer is applied to the same argument
object, so a synchronous observer sees the mutations of the observers that ran
before it, and the final state is what the caller's object holds afterwards.
Returns (final caller-visible object, the object each observer received). -/
def invokeShared (obs : List (Obj → Obj)) (arg : Obj) : Obj × List Obj :=
  obs.foldl (fun acc o => (o acc.1, acc.2 ++ [acc.1])) (arg, [])

/-- Hook.invoke (Hook.js), specialised to one object argument and observers
modelled by the in-place mutation they perform: the parallel branch maps the
observers over the original args (Promise.all(this._hookObservers.map(o =>
o(...args)))); the series branch passes args as-is when mutable and
_.cloneDeep(a) of each original argument per observer when not, so clones
receive the original value and the caller's object is never touched. -/
def hookInvoke (opts : HookOpts) (obs : List (Obj → Obj)) (arg : Obj) : Obj × List Obj :=
  if opts.type = HookType.parallel then
    invokeShared obs arg
  else if opts.mutable then
    invokeShared obs arg
  else
    (arg, obs.map fun _ => arg)

/-- A router node as consumed by ServerUtils.getAllRoutes: its derived full
path, its own routes and its children (the repository's tests pass router
mocks of exactly this shape). -/
inductive PathRouter where
  | mk (path : String) (routes : List RouteDef) (children : List PathRouter)

/-- The router's full path. -/
def PathRouter.path : PathRouter → String
  | .mk p _ _ => p

/-- The router's own routes. -/
def PathRouter.routes : PathRouter → List RouteDef
  | .mk _ rs _ => rs

/-- The router's child routers. -/
def PathRouter.children : PathRouter → List PathRouter
  | .mk _ _ cs => cs

mutual

/-- Router.flattenRouters (lib/Router.js): the router followed by its
descendants, collected depth first in pre-order. -/
def PathRouter.flattenRouters : PathRouter → List PathRouter
  | .mk p rs cs => .mk p rs cs :: flattenChildren cs

/-- The reduce over childRouters inside flattenRouters. -/
def flattenChildren : List PathRouter → List PathRouter
  | [] => []
  | c :: cs => PathRouter.flattenRouters c ++ flattenChildren cs

end

/-- Set.prototype.add on an insertion-ordered set of method names. -/
def setAdd (s : List String) (x : String) : List String :=
  if s.contains x then s else s ++ [x]

/-- One route's contribution to the route map: ensure the entry for fullPath
exists, then add every handler method uppercased to its set
(ServerUtils.getAllRoutes, lib/ServerUtils.js). -/
def routeMapStep (m : List (String × List String)) (fullPath : String)
    (methods : List String) : List (String × List String) :=
  let m := if (m.lookup fullPath).isSome then m else m ++ [(fullPath, [])]
  m.map fun kv =>
    if kv.1 == fullPath then (kv.1, methods.foldl (fun s mth => setAdd s (jsToUpper mth)) kv.2)
    else kv

/-- ServerUtils.getAllRoutes: flattens the router hierarchy and builds the
insertion-ordered map from full path to the set of uppercase methods
registered for it, merging duplicates. -/
def getAllRoutes (router : PathRouter) : List (String × List String) :=
  router.flattenRouters.foldl
    (fun m r =>
      r.routes.foldl
        (fun m route =>
          let fullPath := (if r.path ≠ "/" then r.path else "") ++ route.route.render
          routeMapStep m fullPath ((route.handlers.getD []).map Prod.fst))
        m)
    []

/-- A piece of the compiled route regex
RegExp("^" + path.replace(...).replace(...) + "$"): a literal character, the
([^/]+) capture group produced from :name, or the (?:/([^/]+))? optional group
produced from /:name?. -/
inductive Tok where
  | lit (c : Char)
  | group
  | optGroup
  deriving DecidableEq, Repr

/-- The characters of the replacement string (?:/([^/]+))?. -/
def optGroupChars : List Char :=
  ['(', '?', ':', '/', '(', '[', '^', '/', ']', '+', ')', ')', '?']

/-- The characters of the replacement string ([^/]+). -/
def groupChars : List Char :=
  ['(', '[', '^', '/', ']', '+', ')']

/-- One left-to-right match attempt of the pattern /:([^/?]+)\? at the head of
the list: on success, the remainder after the consumed text. -/
def splitOptParam : List Char → Option (List Char)
  | '/' :: ':' :: rest =>
      let name := rest.takeWhile fun ch => ch ≠ '/' ∧ ch ≠ '?'
      match name, rest.drop name.length with
      | _ :: _, '?' :: tail => some tail
      | _, _ => none
  | _ => none

/-- path.replace(/\/:([^\/?]+)\?/g, "(?:/([^/]+))?"): the global left-to-right
replacement; the fuel argument (initialised to the list length, an upper bound
on the number of steps) only makes the recursion structural. -/
def replaceOptParamsAux : Nat → List Char → List Char
  | _, [] => []
  | 0, l => l
  | fuel + 1, c :: rest =>
      match splitOptParam (c :: rest) with
      | some tail => optGroupChars ++ replaceOptParamsAux fuel tail
      | none => c :: replaceOptParamsAux fuel rest

/-- One left-to-right match attempt of :([^/]+) at the head of the list. -/
def splitParam : List Char → Option (List Char)
  | ':' :: rest =>
      match rest.takeWhile (fun ch => ch ≠ '/') with
      | [] => none
      | name => some (rest.drop name.length)
  | _ => none

/-- path.replace(/:([^\/]+)/g, "([^/]+)") applied after the optional-parameter
replacement (the earlier replacement text contains no further match: its colon
is followed by a slash). -/
def replaceParamsAux : Nat → List Char → List Char
  | _, [] => []
  | 0, l => l
  | fuel + 1, c :: rest =>
      match splitParam (c :: rest) with
      | some tail => groupChars ++ replaceParamsAux fuel tail
      | none => c :: replaceParamsAux fuel rest

/-- The body of the compiled pattern, parsed into tokens: the two replacement
strings become their groups, everything else stays a literal character (route
paths contain no other regex metacharacters). -/
def parseToksAux : Nat → List Char → List Tok
  | _, [] => []
  | 0, _ => []
  | fuel + 1, l =>
      match l with
      | [] => []
      | '(' :: '?' :: ':' :: '/' :: '(' :: '[' :: '^' :: '/' :: ']' :: '+' :: ')' :: ')'
          :: '?' :: rest => Tok.optGroup :: parseToksAux fuel rest
      | '(' :: '[' :: '^' :: '/' :: ']' :: '+' :: ')' :: rest =>
          Tok.group :: parseToksAux fuel rest
      | c :: rest => Tok.lit c :: parseToksAux fuel rest

/-- The compiled pattern of a registered path, as the token list of the
anchored regex body. -/
def pathToks (path : String) : List Tok :=
  let body := replaceParamsAux (replaceOptParamsAux path.data.length path.data).length
    (replaceOptParamsAux path.data.length path.data)
  parseToksAux body.length body

mutual

/-- regex.test on the anchored pattern: the token list must consume the whole
request path.  The fuel (any bound above tokens + characters) makes the
mutual recursion structural. -/
def tokMatchAux : Nat → List Tok → List Char → Bool
  | 0, _, _ => false
  | fuel + 1, ts, ds =>
      match ts, ds with
      | [], [] => true
      | [], _ :: _ => false
      | Tok.lit _ :: _, [] => false
      | Tok.lit c :: ts2, d :: ds2 => c == d && tokMatchAux fuel ts2 ds2
      | Tok.group :: ts2, ds => groupMatchAux fuel ts2 ds
      | Tok.optGroup :: ts2, ds =>
          tokMatchAux fuel ts2 ds ||
            (match ds with
             | '/' :: ds2 => groupMatchAux fuel ts2 ds2
             | _ => false)

/-- Matching of a ([^/]+) group: consume one or more characters other than /
and match the remaining tokens against the remaining characters, with
backtracking over the group length. -/
def groupMatchAux : Nat → List Tok → List Char → Bool
  | 0, _, _ => false
  | fuel + 1, ts, ds =>
      match ds with
      | [] => false
      | d :: ds2 => (d != '/') && (tokMatchAux fuel ts ds2 || groupMatchAux fuel ts ds2)

end

/-- regex.test(req.path) for a compiled pattern. -/
def tokMatch (ts : List Tok) (ds : List Char) : Bool :=
  tokMatchAux (ts.length + ds.length + 1) ts ds

/-- A compiled entry of methodNotAllowedHandler's routePatterns array. -/
structure CompiledRoute where
  toks : List Tok
  methods : List String
  deriving DecidableEq, Repr

/-- The pattern-compilation pass of ServerUtils.methodNotAllowedHandler. -/
def methodNotAllowedCompile (router : PathRouter) : List CompiledRoute :=
  (getAllRoutes router).map fun kv => { toks := pathToks kv.1, methods := kv.2 }

/-- What the returned middleware passes to next(). -/
inductive NextCall where
  | noArg
  | methodNotAllowed (endpoint method allowedMethods : String)
  deriving DecidableEq, Repr

/-- Array.from(methods).sort().join(", "). -/
def sortedJoin (methods : List String) : String :=
  String.intercalate ", " (sortByKey (fun s => s) methods)

/-- The request-time scan of the middleware returned by
methodNotAllowedHandler: patterns are tried in registration order; on the
first path match the method set decides between a METHOD_NOT_ALLOWED error and
next(); with no match the scan falls through to next().  The model's endpoint
field carries req.path in place of req.originalUrl. -/
def mnaScan (patterns : List CompiledRoute) (reqPath reqMethod : String) : NextCall :=
  match patterns with
  | [] => .noArg
  | p :: rest =>
      if tokMatch p.toks reqPath.data then
        if ¬ p.methods.contains (jsToUpper reqMethod) then
          .methodNotAllowed reqPath reqMethod (sortedJoin p.methods)
        else .noArg
      else mnaScan rest reqPath reqMethod

/-- ServerUtils.methodNotAllowedHandler(router) applied to a request. -/
def methodNotAllowedHandler (router : PathRouter) (reqPath reqMethod : String) : NextCall :=
  mnaScan (methodNotAllowedCompile router) reqPath reqMethod

/-- A router with the single registered path /users supporting only GET. -/
def usersRouter : PathRouter :=
  .mk "/" [{ route := .str "/users", handlers := some [("get", HVal.fn 0)] }] []

/-- A router node as consumed by generateRouterMap
(lib/utils/generateRouterMap.js): the route-segment field root (the name the
repository's Router class and its tests use), the legacy route property (not
defined on the current Router class, so absent), the derived url, the node's
own routes and its children.  Reading the absent route property yields
undefined, which a JS template literal renders as "undefined". -/
inductive MapRouter where
  | mk (root : String) (route : Option String) (url : String)
       (routes : List RouteDef) (children : List MapRouter)

/-- The route-segment name. -/
def MapRouter.root : MapRouter → String
  | .mk ro _ _ _ _ => ro

/-- The legacy route property (none on the current Router class). -/
def MapRouter.route : MapRouter → Option String
  | .mk _ rt _ _ _ => rt

/-- The router's URL. -/
def MapRouter.url : MapRouter → String
  | .mk _ _ u _ _ => u

/-- The router's own routes. -/
def MapRouter.routes : MapRouter → List RouteDef
  | .mk _ _ _ rs _ => rs

/-- JS template rendering of a possibly absent string property. -/
def jsOptStr : Option String → String
  | some s => s
  | none => "undefined"

mutual

/-- flattenRouters paired with each node's segment chain below the top router:
the chain is empty exactly at the top router, and for a deeper node it lists
the root segments met when walking from just below the top down to the node —
the segments getRelativeRoute collects by walking parentRouter upward. -/
def MapRouter.flattenWithChain : MapRouter → List String → List (MapRouter × List String)
  | .mk ro rt u rs cs, chain => (.mk ro rt u rs cs, chain) :: flattenChildrenChain cs chain

/-- The recursion over childRouters inside flattenWithChain. -/
def flattenChildrenChain : List MapRouter → List String → List (MapRouter × List String)
  | [], _ => []
  | c :: cs, chain =>
      MapRouter.flattenWithChain c (chain ++ [c.root]) ++ flattenChildrenChain cs chain

end

/-- getRelativeRoute(relFrom, relTo) (lib/utils/generateRouterMap.js): when the
node is the top router it renders template relFrom.route followed by an
underscore; otherwise it joins the chain's root segments, each followed by an
underscore. -/
def relKey (topRoute : Option String) (chain : List String) : String :=
  match chain with
  | [] => jsOptStr topRoute ++ "_"
  | segs => String.join (segs.map fun s => s ++ "_")

/-- One entry of the generated map value: the endpoint url and the
accepted_methods object mapping each declared method to its metadata (empty
object when none is declared). -/
structure Endpoint where
  url : String
  accepted_methods : List (String × MetaVal)
  deriving DecidableEq, Repr

/-- getEndpoints(r) (lib/utils/generateRouterMap.js). -/
def getEndpoints (r : MapRouter) : List Endpoint :=
  r.routes.map fun route =>
    { url := r.url ++ route.route.render
      accepted_methods := (route.handlers.getD []).map fun mh =>
        (mh.1, (route.meta.lookup mh.1).getD MetaVal.emptyObj) }

/-- generateRouterMap(topRouter) (lib/utils/generateRouterMap.js): flattens the
tree, sorts the nodes by root, and emits relative-key endpoint entries for the
nodes owning at least one route (keys are distinct here, so the object spread
appends). -/
def generateRouterMap (top : MapRouter) : List (String × List Endpoint) :=
  (sortByKey (fun rc => rc.1.root) (top.flattenWithChain [])).foldl
    (fun m rc =>
      let key := relKey top.route rc.2 ++ "endpoints"
      let endpoints := getEndpoints rc.1
      if endpoints.isEmpty then m else m ++ [(key, endpoints)])
    []

/-- The child router of the claim's example tree: v1 with GET /items. -/
def v1Router : MapRouter :=
  .mk "v1" none "http://localhost:5000/api/v1"
    [{ route := .str "/items", handlers := some [("get", HVal.fn 1)] }] []

/-- The top router of the claim's example tree: api with GET /health and the
child v1. -/
def apiRouter : MapRouter :=
  .mk "api" none "http://localhost:5000/api"
    [{ route := .str "/health", handlers := some [("get", HVal.fn 0)] }] [v1Router]

/-! Theorems -/

theorem getHandlerMiddleware_eq (r : RouterChain) :
    ∀ acc, getHandlerMiddleware r acc = (ancestorStacks r).flatten ++ acc := by
  induction r with
  | app => intro acc; simp [getHandlerMiddleware, ancestorStacks]
  | node hm parent ih =>
      intro acc
      simp [getHandlerMiddleware, ancestorStacks, ih]

/-- C7: for every Router C, C.getHandlerMiddleware() is the concatenation of
the handlerMiddleware stacks of C's ancestor chain, root first and C's own
stack last; in particular a parent with stack [m1] and child with stack [m2]
give [m1, m2]. -/
theorem C7_handler_middleware_ancestor_first :
    (∀ r : RouterChain, getHandlerMiddleware r [] = (ancestorStacks r).flatten) ∧
    getHandlerMiddleware
      (RouterChain.node [HVal.fn 2] (RouterChain.node [HVal.fn 1] RouterChain.app)) []
      = [HVal.fn 1, HVal.fn 2] := by
  refine ⟨fun r => by simpa using getHandlerMiddleware_eq r [], by decide⟩

/-- C1 counterexample: on an initialised Router, addMiddleware with one
function argument is not a no-op — the routerMiddleware stack changes, so the
claim that all four mutators leave the four collections unchanged fails. -/
theorem C1_counterexample :
    (initedRouter.addMiddleware [HVal.fn 0]).routerMiddleware
      ≠ initedRouter.routerMiddleware := by decide

/-- C1 (amended): once a Router is initialised, addRoute and createChildRouter
are no-ops apart from a logged warning, while addMiddleware and
addHandlerMiddleware warn but still append their function arguments to the
respective middleware stacks, leaving all other fields unchanged. -/
theorem C1_freeze_after_init_amended (s : RouterState) (h : s.initialised = true)
    (defs : List RouteDef) (seg : String) (funcs : List HVal) :
    s.addRoute defs = s ∧
    s.createChildRouter seg = s ∧
    s.addMiddleware funcs =
      { s with routerMiddleware := s.routerMiddleware ++ funcs.filter HVal.isFunction } ∧
    s.addHandlerMiddleware funcs =
      { s with handlerMiddleware := s.handlerMiddleware ++ funcs.filter HVal.isFunction } := by
  refine ⟨?_, ?_, ?_, ?_⟩
  · simp [RouterState.addRoute, h]
  · simp [RouterState.createChildRouter, h]
  · cases funcs with
    | nil => simp [RouterState.addMiddleware, addMiddlewareToStack]
    | cons a as => simp [RouterState.addMiddleware, addMiddlewareToStack]
  · cases funcs with
    | nil => simp [RouterState.addHandlerMiddleware, addMiddlewareToStack]
    | cons a as => simp [RouterState.addHandlerMiddleware, addMiddlewareToStack]

/-- C1 witness: the amended statement at a concrete initialised router. -/
theorem C1_freeze_after_init_amended_witness :
    initedRouter.initialised = true ∧
    initedRouter.addRoute [healthRoute] = initedRouter ∧
    initedRouter.createChildRouter "child" = initedRouter ∧
    initedRouter.addMiddleware [HVal.fn 3] =
      { initedRouter with
          routerMiddleware :=
            initedRouter.routerMiddleware ++ [HVal.fn 3].filter HVal.isFunction } ∧
    initedRouter.addHandlerMiddleware [HVal.fn 3] =
      { initedRouter with
          handlerMiddleware :=
            initedRouter.handlerMiddleware ++ [HVal.fn 3].filter HVal.isFunction } :=
  ⟨rfl,
   (C1_freeze_after_init_amended initedRouter rfl [healthRoute] "child" [HVal.fn 3]).1,
   (C1_freeze_after_init_amended initedRouter rfl [healthRoute] "child" [HVal.fn 3]).2.1,
   (C1_freeze_after_init_amended initedRouter rfl [healthRoute] "child" [HVal.fn 3]).2.2.1,
   (C1_freeze_after_init_amended initedRouter rfl [healthRoute] "child" [HVal.fn 3]).2.2.2⟩

theorem validateRoute_eq_all (r : RouteDef) :
    validateRoute r =
      (r.route.isString &&
        match r.handlers with
        | none => false
        | some hs => hs.all fun mh =>
            expressHasMethod mh.1 &&
              (mh.2.isFunction || (mh.2.isArray && mh.2.allElemsFunctions))) := by
  unfold validateRoute
  cases hS : r.route.isString with
  | false => simp [hS]
  | true =>
    cases hh : r.handlers with
    | none => simp [hS, hh]
    | some hs =>
      have hfun : (fun (mh : String × HVal) =>
            if ¬ expressHasMethod mh.1 then false
            else if ¬ mh.2.isFunction && ¬ (mh.2.isArray && mh.2.allElemsFunctions) then false
            else true)
          = fun mh => expressHasMethod mh.1 &&
              (mh.2.isFunction || (mh.2.isArray && mh.2.allElemsFunctions)) := by
        funext mh
        cases hE : expressHasMethod mh.1 <;>
          cases hF : mh.2.isFunction <;>
            cases hA : (mh.2.isArray && mh.2.allElemsFunctions) <;> simp [hE, hF, hA]
      simp only [hS, hh, Bool.true_and, hfun]
      cases hall : hs.all fun mh => expressHasMethod mh.1 &&
          (mh.2.isFunction || (mh.2.isArray && mh.2.allElemsFunctions)) <;> simp [hall]

theorem entryOk_iff (mh : String × HVal) :
    (expressHasMethod mh.1 &&
        (mh.2.isFunction || (mh.2.isArray && mh.2.allElemsFunctions))) = true
    ↔ expressHasMethod mh.1 = true ∧
      (mh.2.isFunction = true ∨
        ∃ es, mh.2 = HVal.arr es ∧ ∀ e ∈ es, e.isFunction = true) := by
  rw [Bool.and_eq_true, Bool.or_eq_true, Bool.and_eq_true]
  apply and_congr Iff.rfl
  apply or_congr Iff.rfl
  cases h2 : mh.2 with
  | fn i => simp [HVal.isArray, HVal.allElemsFunctions]
  | other v => simp [HVal.isArray, HVal.allElemsFunctions]
  | arr es => simp [HVal.isArray, HVal.allElemsFunctions, List.all_eq_true]

theorem validateRoute_iff (r : RouteDef) :
    validateRoute r = true ↔ amendedValidRoute r := by
  rw [validateRoute_eq_all]
  unfold amendedValidRoute
  cases hS : r.route.isString with
  | false => simp [hS]
  | true =>
    cases hh : r.handlers with
    | none => simp [hS, hh]
    | some hs =>
      simp only [hS, hh, Bool.true_and, Option.some.injEq, true_and]
      rw [List.all_eq_true]
      constructor
      · intro hall
        exact ⟨hs, rfl, fun mh hmh => (entryOk_iff mh).mp (hall mh hmh)⟩
      · rintro ⟨hs2, heq, hok⟩
        subst heq
        exact fun mh hmh => (entryOk_iff mh).mpr (hok mh hmh)

/-- C5 counterexample: the definition with route "/x" and an empty handlers
object is accepted by validateRoute and appended by addRoute, although the
claim requires handlers to be non-empty. -/
theorem C5_counterexample :
    validateRoute emptyHandlersRoute = true ∧
    ¬ claimValidRoute emptyHandlersRoute ∧
    (freshRouter.addRoute [emptyHandlersRoute]).routes = [emptyHandlersRoute] := by
  refine ⟨by decide, ?_, by decide⟩
  rintro ⟨-, hs, heq, hne, -⟩
  have : hs = [] := by
    have h0 : emptyHandlersRoute.handlers = some [] := rfl
    rw [h0] at heq
    exact (Option.some.injEq _ _ ▸ heq.symm :)
  exact hne this

/-- C5 (amended): on a Router that has not initialised, addRoute appends
exactly the argument definitions accepted by validateRoute, and validateRoute
accepts a definition iff its route is a string, its handlers object is present
(possibly empty), every handlers key is recognized by the underlying router,
and every handlers value is a function or an array (possibly empty) containing
only functions. -/
theorem C5_addRoute_amended (s : RouterState) (h : s.initialised = false)
    (defs : List RouteDef) :
    (s.addRoute defs).routes = s.routes ++ defs.filter validateRoute ∧
    (∀ d, validateRoute d = true ↔ amendedValidRoute d) := by
  constructor
  · cases defs with
    | nil => simp [RouterState.addRoute, h]
    | cons a as => simp [RouterState.addRoute, h]
  · exact validateRoute_iff

/-- C5 witness: the amended statement at a concrete uninitialised router. -/
theorem C5_addRoute_amended_witness :
    freshRouter.initialised = false ∧
    (freshRouter.addRoute [healthRoute]).routes
      = freshRouter.routes ++ [healthRoute].filter validateRoute :=
  ⟨rfl, (C5_addRoute_amended freshRouter rfl [healthRoute]).1⟩

/-- C2: the registration loop of Router.init emits, for every stored route,
exactly the five methods post, get, put, patch, delete in that order; each
registration consists of the route-config caching middleware followed by the
ancestor-ordered handler-middleware chain and then the declared handler when
one exists, or the apiInvalidMethodHandler fallback otherwise; the fallback
responds with method-not-implemented, distinct from path-not-found. -/
theorem C2_init_registration (routes : List RouteDef) (router : RouterChain) :
    (initRegistrations routes router).map RegEntry.method
        = routes.flatMap (fun _ => initMethodOrder) ∧
    (∀ r ∈ routes, ∀ m ∈ initMethodOrder,
      (⟨m, r.route.render,
         RegMW.cacheRoute r :: ((ancestorStacks router).flatten.map RegMW.mw),
         match lookupHandler r m with
         | some h => RegHandler.declared h
         | none => RegHandler.invalidMethodFallback⟩ : RegEntry)
        ∈ initRegistrations routes router) ∧
    apiInvalidMethodHandlerKind ≠ apiNotFoundHandlerKind := by
  refine ⟨?_, ?_, by decide⟩
  · induction routes with
    | nil => rfl
    | cons r rs ih =>
        simp only [initRegistrations, List.flatMap_cons, List.map_append] at ih ⊢
        rw [ih]
        rfl
  · intro r hr m hm
    have hge := getHandlerMiddleware_eq router []
    rw [List.append_nil] at hge
    simp only [initRegistrations, List.mem_flatMap]
    refine ⟨r, hr, ?_⟩
    simp only [List.mem_map]
    exact ⟨m, hm, by rw [hge]⟩

/-- C2 witness: the registration produced for a concrete route and chain. -/
theorem C2_init_registration_witness :
    healthRoute ∈ [healthRoute] ∧ "get" ∈ initMethodOrder ∧
    (⟨"get", (healthRoute.route).render,
       RegMW.cacheRoute healthRoute
         :: ((ancestorStacks (RouterChain.node [HVal.fn 9] RouterChain.app)).flatten.map RegMW.mw),
       match lookupHandler healthRoute "get" with
       | some h => RegHandler.declared h
       | none => RegHandler.invalidMethodFallback⟩ : RegEntry)
      ∈ initRegistrations [healthRoute] (RouterChain.node [HVal.fn 9] RouterChain.app) :=
  ⟨by decide, by decide,
   (C2_init_registration [healthRoute] (RouterChain.node [HVal.fn 9] RouterChain.app)).2.1
     healthRoute (by decide) "get" (by decide)⟩

theorem countP_lt_iff_filter_ne_nil (l : List (String × JsVal)) :
    (l.countP fun kv => kv.2.isNullish) < l.length
      ↔ (l.filter fun kv => !kv.2.isNullish) ≠ [] := by
  constructor
  · intro h
    intro hnil
    have hall := List.filter_eq_nil_iff.mp hnil
    have : l.countP (fun kv => kv.2.isNullish) = l.length := by
      apply List.countP_eq_length.mpr
      intro a ha
      have := hall a ha
      simpa using this
    omega
  · intro h
    rcases List.exists_cons_of_ne_nil h with ⟨a, t, hcons⟩
    have ha : a ∈ l.filter fun kv => !kv.2.isNullish := by rw [hcons]; exact List.mem_cons_self a t
    rw [List.mem_filter] at ha
    have hlt : l.countP (fun kv => kv.2.isNullish) ≠ l.length := by
      intro heq
      have := List.countP_eq_length.mp heq a ha.1
      simp [this] at ha
    exact lt_of_le_of_ne (List.countP_le_length _) hlt

theorem processAttr_eq (mf : Bool) (c : Option (List (String × JsVal))) :
    processAttr mf c =
      (specStrip c,
       match c with
       | none => mf
       | some l => !(l.filter fun kv => !kv.2.isNullish).isEmpty) := by
  cases c with
  | none => rfl
  | some l =>
    cases l with
    | nil => simp [processAttr, specStrip]
    | cons kv t =>
      have hne : (kv :: t).length ≠ 0 := by simp
      simp only [processAttr, specStrip, Option.map_some, if_neg hne]
      refine Prod.ext rfl ?_
      rw [Bool.eq_iff_iff]
      rw [decide_eq_true_eq, Bool.not_eq_true', List.isEmpty_eq_false]
      exact countP_lt_iff_filter_ne_nil (kv :: t)

/-- C8 counterexample: ServerUtils.addExistenceProps on a POST request with an
absent body sets hasBody to true although no key survives (the claim requires
the flag to be true iff at least one key survives the stripping). -/
theorem C8_counterexample :
    (addExistencePropsServer postNoBodyReq).hasBody = some true ∧
    (addExistencePropsServer postNoBodyReq).body = none := by decide

/-- C8 (amended): for GET requests the body is first replaced by an empty
object; every null/undefined key of a present container is deleted in place;
for present containers the existence flag is true iff at least one key
survives the stripping; for an absent container the utils variant flags false
while the ServerUtils variant flags true. -/
theorem C8_addExistenceProps_amended (req : Req) :
    addExistencePropsUtils req =
      { req with
          body := specStrip (specGetBody req),
          hasBody := some (specSurvives (specGetBody req)),
          params := specStrip req.params,
          hasParams := some (specSurvives req.params),
          query := specStrip req.query,
          hasQuery := some (specSurvives req.query) } ∧
    addExistencePropsServer req =
      { req with
          body := specStrip (specGetBody req),
          hasBody := some (specFlagServer (specGetBody req)),
          params := specStrip req.params,
          hasParams := some (specFlagServer req.params),
          query := specStrip req.query,
          hasQuery := some (specFlagServer req.query) } := by
  cases hm : req.method == "GET" with
  | false =>
      cases hb : req.body <;> cases hp : req.params <;> cases hq : req.query <;>
        simp [addExistencePropsUtils, addExistencePropsServer, addExistencePropsWith,
              hm, hb, hp, hq, processAttr_eq, specGetBody, specSurvives, specFlagServer]
  | true =>
      cases hp : req.params <;> cases hq : req.query <;>
        simp [addExistencePropsUtils, addExistencePropsServer, addExistencePropsWith,
              hm, hp, hq, processAttr_eq, specGetBody, specSurvives, specFlagServer]

/-- C10: the middleware returned by cacheRouteConfig(c) sets req.routeConfig
to c, leaves every other request field and the response unchanged, and calls
next exactly once with no arguments. -/
theorem C10_cacheRouteConfig_frame (c : RouteDef) (req : Req) (res : Nat) :
    (cacheRouteConfig c req res).1.routeConfig = some c ∧
    (cacheRouteConfig c req res).1.method = req.method ∧
    (cacheRouteConfig c req res).1.body = req.body ∧
    (cacheRouteConfig c req res).1.params = req.params ∧
    (cacheRouteConfig c req res).1.query = req.query ∧
    (cacheRouteConfig c req res).1.hasBody = req.hasBody ∧
    (cacheRouteConfig c req res).1.hasParams = req.hasParams ∧
    (cacheRouteConfig c req res).1.hasQuery = req.hasQuery ∧
    (cacheRouteConfig c req res).2.1 = res ∧
    (cacheRouteConfig c req res).2.2 = [NextArg.noArg] :=
  ⟨rfl, rfl, rfl, rfl, rfl, rfl, rfl, rfl, rfl, rfl⟩

/-- C4 counterexample: a Hook constructed without options resolves to parallel
non-mutable mode, yet invoke passes the original object: with observers
[set x to 1, identity] and caller object x=0, the second observer receives the
first observer's mutation and the caller's object is changed afterwards —
contradicting the claim that each observer gets a deep-cloned copy. -/
theorem C4_counterexample :
    (resolveOpts none).type = HookType.parallel ∧
    (resolveOpts none).mutable = false ∧
    (hookInvoke (resolveOpts none) [fun _ => [("x", 1)], fun o => o] [("x", 0)]).1
      = [("x", 1)] ∧
    (hookInvoke (resolveOpts none) [fun _ => [("x", 1)], fun o => o] [("x", 0)]).2
      = [[("x", 0)], [("x", 1)]] :=
  ⟨rfl, rfl, rfl, rfl⟩

theorem removeFirst_of_no_match (p : BoundObs → Bool) (l : List BoundObs)
    (h : ∀ o ∈ l, p o = false) : removeFirst p l = l := by
  induction l with
  | nil => rfl
  | cons o os ih =>
      simp only [removeFirst, h o (List.mem_cons_self o os), if_false, Bool.false_eq_true,
        ite_false]
      rw [ih fun x hx => h x (List.mem_cons_of_mem o hx)]

theorem removeFirst_first_match (p : BoundObs → Bool) (pre post : List BoundObs)
    (x : BoundObs) (hpre : ∀ o ∈ pre, p o = false) (hx : p x = true) :
    removeFirst p (pre ++ x :: post) = pre ++ post := by
  induction pre with
  | nil => simp [removeFirst, hx]
  | cons o os ih =>
      simp only [List.cons_append, removeFirst, hpre o (List.mem_cons_self o os),
        Bool.false_eq_true, ite_false]
      exact congrArg (List.cons o) (ih fun y hy => hpre y (List.mem_cons_of_mem o hy))

/-- C9 counterexample: after hook0.tap(f) for function f = 0, untap(f) removes
nothing — tap stored the bound wrapper, whose reference differs from f — and a
subsequent invoke still runs f. -/
theorem C9_counterexample :
    ((hook0.tap 0 true).untap 0).observers = (hook0.tap 0 true).observers ∧
    0 ∈ ((hook0.tap 0 true).untap 0).invokeTargets := by decide

/-- C9 (amended): untap removes the first stored entry whose reference equals
its argument and nothing else; since tap stores observer.bind(scope), a fresh
wrapper distinct from the tapped function, untap(f) right after tap(f) removes
nothing and f still runs on invoke; a reference that is itself stored (for
example pushed directly) is removed at its first occurrence only. -/
theorem C9_untap_amended (h : HookRefs) (f : Nat)
    (hnotw : ∀ o ∈ h.observers, o.wrapper ≠ f) (hf : f ≠ h.nextRef) :
    ((h.tap f true).untap f = h.tap f true ∧
      f ∈ ((h.tap f true).untap f).invokeTargets) ∧
    ∀ (pre post : List BoundObs) (x : BoundObs) (n : Nat),
      (∀ o ∈ pre, o.wrapper ≠ f) → x.wrapper = f →
      (HookRefs.mk (pre ++ x :: post) n).untap f = HookRefs.mk (pre ++ post) n := by
  constructor
  · have hobs : ∀ o ∈ (h.tap f true).observers, (o.wrapper == f) = false := by
      intro o ho
      simp only [HookRefs.tap, if_true] at ho
      rw [List.mem_append] at ho
      rcases ho with ho | ho
      · simpa using hnotw o ho
      · simp only [List.mem_singleton] at ho
        subst ho
        simpa using fun he => hf he.symm
    have huntap : (h.tap f true).untap f = h.tap f true := by
      simp only [HookRefs.untap, removeFirst_of_no_match _ _ hobs]
    refine ⟨huntap, ?_⟩
    rw [huntap]
    simp [HookRefs.tap, HookRefs.invokeTargets]
  · intro pre post x n hpre hx
    simp only [HookRefs.untap]
    rw [removeFirst_first_match _ pre post x
      (fun o ho => by simpa using hpre o ho) (by simp [hx])]

/-- C9 witness: the amended statement at concrete inputs — tap-then-untap of
function 0 on hook0, and removal of a directly stored reference. -/
theorem C9_untap_amended_witness :
    ((hook0.tap 0 true).untap 0 = hook0.tap 0 true ∧
      0 ∈ ((hook0.tap 0 true).untap 0).invokeTargets) ∧
    (HookRefs.mk [⟨0, 7⟩] 9).untap 0 = HookRefs.mk [] 9 :=
  ⟨(C9_untap_amended hook0 0 (by simp [hook0]) (by decide)).1,
   (C9_untap_amended hook0 0 (by simp [hook0]) (by decide)).2 [] [] ⟨0, 7⟩ 9
     (by simp) rfl⟩

/-- C4 (amended): a Hook constructed without mutable: true and without an
explicit type resolves to parallel mode, where invoke passes every observer
the original argument object — mutations are visible to later observers and
to the caller; deep-cloned copies are passed only by series-mode non-mutable
hooks, whose observers each receive the original value and whose caller's
object is unchanged after invoke. -/
theorem C4_invoke_amended (m : Option Bool) (obs : List (Obj → Obj)) (arg : Obj)
    (hm : m ≠ some true) :
    (resolveOpts (some { type := none, mutable := m })).type = HookType.parallel ∧
    hookInvoke (resolveOpts (some { type := none, mutable := m })) obs arg
      = invokeShared obs arg ∧
    (hookInvoke { type := HookType.series, mutable := false } obs arg).1 = arg ∧
    (∀ r ∈ (hookInvoke { type := HookType.series, mutable := false } obs arg).2, r = arg) := by
  have htype : (resolveOpts (some { type := none, mutable := m })).type = HookType.parallel := by
    cases m with
    | none => rfl
    | some b =>
        cases b with
        | false => rfl
        | true => exact absurd rfl hm
  refine ⟨htype, ?_, ?_, ?_⟩
  · simp [hookInvoke, htype]
  · simp [hookInvoke]
  · intro r hr
    simp only [hookInvoke, reduceCtorEq, if_false, Bool.false_eq_true, ite_false] at hr
    rcases List.mem_map.mp hr with ⟨o, -, ho⟩
    exact ho.symm

/-- C4 witness: the amended statement at concrete inputs. -/
theorem C4_invoke_amended_witness :
    (resolveOpts (some { type := none, mutable := none })).type = HookType.parallel ∧
    hookInvoke (resolveOpts (some { type := none, mutable := none }))
        [fun o => o] [("x", 0)]
      = invokeShared [fun o => o] [("x", 0)] ∧
    (hookInvoke { type := HookType.series, mutable := false } [fun o => o] [("x", 0)]).1
      = [("x", 0)] ∧
    (∀ r ∈ (hookInvoke { type := HookType.series, mutable := false }
        [fun o => o] [("x", 0)]).2, r = [("x", 0)]) :=
  C4_invoke_amended none [fun o => o] [("x", 0)] (by simp)

/-- C6: the middleware of methodNotAllowedHandler scans its compiled patterns
in registration order; on the first pattern matching the request path it calls
next with a method-not-allowed error carrying the sorted comma-joined allowed
methods when the uppercased request method is not in the path's allowed set,
and next() with no argument when it is; when no pattern matches the path it
calls next() with no argument. -/
theorem C6_method_not_allowed_scan (ps : List CompiledRoute) (path m : String) :
    (∀ p, ps.find? (fun q => tokMatch q.toks path.data) = some p →
      mnaScan ps path m =
        (if p.methods.contains (jsToUpper m) then NextCall.noArg
         else NextCall.methodNotAllowed path m (sortedJoin p.methods))) ∧
    (ps.find? (fun q => tokMatch q.toks path.data) = none →
      mnaScan ps path m = NextCall.noArg) := by
  induction ps with
  | nil =>
      exact ⟨fun p h => by simp at h, fun _ => rfl⟩
  | cons q rest ih =>
      cases hq : tokMatch q.toks path.data with
      | false =>
          constructor
          · intro p hp
            rw [List.find?_cons_of_neg _ (by simp [hq])] at hp
            have := ih.1 p hp
            simpa [mnaScan, hq] using this
          · intro hp
            rw [List.find?_cons_of_neg _ (by simp [hq])] at hp
            have := ih.2 hp
            simpa [mnaScan, hq] using this
      | true =>
          constructor
          · intro p hp
            rw [List.find?_cons_of_pos _ (by simp [hq])] at hp
            cases hp
            by_cases hc : q.methods.contains (jsToUpper m)
            · simp [mnaScan, hq, hc]
            · simp [mnaScan, hq, hc]
          · intro hp
            rw [List.find?_cons_of_pos _ (by simp [hq])] at hp
            exact absurd hp (by simp)

/-- C6 witness: through the full pipeline on a router registering only
GET /users — a DELETE /users request yields the method-not-allowed error
listing GET, and GET /unknown falls through with no argument. -/
theorem C6_method_not_allowed_scan_witness :
    methodNotAllowedHandler usersRouter "/users" "DELETE"
      = NextCall.methodNotAllowed "/users" "DELETE" "GET" ∧
    methodNotAllowedHandler usersRouter "/unknown" "GET" = NextCall.noArg := by
  constructor
  · have h := (C6_method_not_allowed_scan (methodNotAllowedCompile usersRouter)
        "/users" "DELETE").1
      { toks := pathToks "/users", methods := ["GET"] } (by decide)
    exact h.trans (by decide)
  · exact (C6_method_not_allowed_scan (methodNotAllowedCompile usersRouter)
        "/unknown" "GET").2 (by decide)

/-- C3 at the failing input: on the example tree — top router api with
GET /health and child v1 with GET /items — generateRouterMap does produce
exactly two endpoint entries with the correct url and accepted_methods, and
the child entry is correctly keyed v1_endpoints, but the top router's key is
undefined_endpoints rather than api_endpoints: getRelativeRoute reads
relFrom.route while the segment field of the Router class (used by the sort
and the upward walk in the same function) is root. -/
theorem C3_generateRouterMap_failing_input :
    generateRouterMap apiRouter =
      [("undefined_endpoints",
        [{ url := "http://localhost:5000/api/health",
           accepted_methods := [("get", MetaVal.emptyObj)] }]),
       ("v1_endpoints",
        [{ url := "http://localhost:5000/api/v1/items",
           accepted_methods := [("get", MetaVal.emptyObj)] }])] := by decide
